/-
Verification of the QuantumGate Endpoint variant type
(QuantumGate::Implementation::Network::Endpoint, Endpoint.h).

The Endpoint class is a tagged union over an IPEndpoint payload, a
BTHEndpoint payload, and an Unspecified state.  The discriminant m_Type
is a UInt8 enum (Unspecified = 0, IP = 1, BTH = 2); we model it as a Nat
so that the switch statements in the source, whose default arms are
guarded by assert(false), remain meaningful: the default arm corresponds
to a discriminant outside {0, 1, 2}.  The anonymous union is modelled by
the Storage sum; reading a union member that is not active (undefined
behaviour in C++) is modelled by a fixed junk value, which the operations
only ever produce on states the source cannot reach.

IPEndpoint.h and BTHEndpoint.h are not part of the sources provided, so
the two payload types are modelled from the specification (section 3 and
4.2 of the design document): plain records of address, port or channel,
protocol, and relay coordinates, with field-wise value equality.
-/
import Mathlib

namespace QuantumGate

/-- Protocol enumeration: Unspecified, TCP, UDP, ICMP, RFCOMM. -/
inductive Protocol : Type where
  | Unspecified : Protocol
  | TCP : Protocol
  | UDP : Protocol
  | ICMP : Protocol
  | RFCOMM : Protocol
deriving DecidableEq, Repr

/-- Modelled from the spec: an IP host address is either v4 or v6
(the address family is derived from the form, never stored). -/
inductive IPAddress : Type where
  | v4 (addr : Nat) : IPAddress
  | v6 (addr : Nat) : IPAddress
deriving DecidableEq, Repr

/-- Modelled from the spec: IPEndpoint is a plain value type of
address, 16-bit port, protocol (restricted to TCP, UDP, ICMP or
Unspecified by its constructors), relay_port and relay_hop. -/
structure IPEndpoint : Type where
  address : IPAddress
  port : Nat
  protocol : Protocol
  relayPort : Nat
  relayHop : Nat
deriving DecidableEq, Repr

/-- Modelled from the spec: BTHEndpoint is a plain value type of a
48-bit Bluetooth device address, a service channel, a protocol
(restricted to RFCOMM or Unspecified), relay_port and relay_hop. -/
structure BTHEndpoint : Type where
  address : Nat
  channel : Nat
  protocol : Protocol
  relayPort : Nat
  relayHop : Nat
deriving DecidableEq, Repr

/-- Modelled from the spec: IPEndpoint value equality compares address,
port, protocol, and both relay coordinates. -/
def IPEndpoint.eqb (a b : IPEndpoint) : Bool :=
  decide (a.address = b.address) && decide (a.port = b.port) &&
  decide (a.protocol = b.protocol) && decide (a.relayPort = b.relayPort) &&
  decide (a.relayHop = b.relayHop)

/-- Modelled from the spec: BTHEndpoint value equality compares device
address, service channel, protocol, and both relay coordinates. -/
def BTHEndpoint.eqb (a b : BTHEndpoint) : Bool :=
  decide (a.address = b.address) && decide (a.channel = b.channel) &&
  decide (a.protocol = b.protocol) && decide (a.relayPort = b.relayPort) &&
  decide (a.relayHop = b.relayHop)

/-- Modelled from the spec: IPEndpoint.GetProtocol returns the stored protocol. -/
def IPEndpoint.GetProtocol (e : IPEndpoint) : Protocol := e.protocol

/-- Modelled from the spec: IPEndpoint.GetRelayPort returns the stored relay circuit id. -/
def IPEndpoint.GetRelayPort (e : IPEndpoint) : Nat := e.relayPort

/-- Modelled from the spec: IPEndpoint.GetRelayHop returns the stored hop index. -/
def IPEndpoint.GetRelayHop (e : IPEndpoint) : Nat := e.relayHop

/-- Modelled from the spec: BTHEndpoint.GetProtocol returns the stored protocol. -/
def BTHEndpoint.GetProtocol (e : BTHEndpoint) : Protocol := e.protocol

/-- Modelled from the spec: BTHEndpoint.GetRelayPort returns the stored relay circuit id. -/
def BTHEndpoint.GetRelayPort (e : BTHEndpoint) : Nat := e.relayPort

/-- Modelled from the spec: BTHEndpoint.GetRelayHop returns the stored hop index. -/
def BTHEndpoint.GetRelayHop (e : BTHEndpoint) : Nat := e.relayHop

theorem IPEndpoint.ipEqb_iff (a b : IPEndpoint) : a.eqb b = true ↔ a = b := by
  cases a; cases b
  simp [IPEndpoint.eqb, IPEndpoint.mk.injEq, and_assoc]

theorem BTHEndpoint.bthEqb_iff (a b : BTHEndpoint) : a.eqb b = true ↔ a = b := by
  cases a; cases b
  simp [BTHEndpoint.eqb, BTHEndpoint.mk.injEq, and_assoc]

/-- The three enumerators of Endpoint::Type, a UInt8 enum class. -/
def EType.Unspecified : Nat := 0

/-- Endpoint::Type::IP. -/
def EType.IP : Nat := 1

/-- Endpoint::Type::BTH. -/
def EType.BTH : Nat := 2

/-- The anonymous union inside Endpoint: int m_Dummy, IPEndpoint
m_IPEndpoint, BTHEndpoint m_BTHEndpoint; exactly one member active. -/
inductive Storage : Type where
  | dummy (v : Int) : Storage
  | ip (e : IPEndpoint) : Storage
  | bth (e : BTHEndpoint) : Storage
deriving DecidableEq, Repr

/-- Reading union member m_IPEndpoint.  When the active member is not
m_IPEndpoint this read is undefined behaviour in C++; the model returns
a fixed junk value, which no reachable execution observes. -/
def Storage.readIP : Storage → IPEndpoint
  | .ip e => e
  | _ => ⟨.v4 0, 0, .Unspecified, 0, 0⟩

/-- Reading union member m_BTHEndpoint; junk on an inactive member as
in Storage.readIP. -/
def Storage.readBTH : Storage → BTHEndpoint
  | .bth e => e
  | _ => ⟨0, 0, .Unspecified, 0, 0⟩

/-- The Endpoint class state: discriminant m_Type plus the union. -/
structure Endpoint : Type where
  m_Type : Nat
  store : Storage
deriving DecidableEq, Repr

/-- Endpoint default constructor: m_Type = Unspecified, m_Dummy = 0. -/
def Endpoint.unspecified : Endpoint := ⟨EType.Unspecified, .dummy 0⟩

/-- Endpoint::Copy(other): switch on other.m_Type; IP and BTH copy the
matching union member and return other.m_Type; Unspecified and the
assert(false) default arm fall through to m_Dummy = 0 and return
Unspecified.  The result does not depend on the prior state of this,
since every path assigns a union member and the returned tag. -/
def Endpoint.Copy (other : Endpoint) : Endpoint :=
  if other.m_Type = EType.IP then
    ⟨other.m_Type, .ip (Storage.readIP other.store)⟩
  else if other.m_Type = EType.BTH then
    ⟨other.m_Type, .bth (Storage.readBTH other.store)⟩
  else
    ⟨EType.Unspecified, .dummy 0⟩

/-- Endpoint::Move(other): std::exchange resets other.m_Type to
Unspecified, then the switch on the exchanged tag moves the matching
union member; moving a plain value payload leaves other.store in place.
Returns (new this, other after the move). -/
def Endpoint.Move (other : Endpoint) : Endpoint × Endpoint :=
  let type := other.m_Type
  let other2 : Endpoint := ⟨EType.Unspecified, other.store⟩
  if type = EType.IP then
    (⟨type, .ip (Storage.readIP other.store)⟩, other2)
  else if type = EType.BTH then
    (⟨type, .bth (Storage.readBTH other.store)⟩, other2)
  else
    (⟨EType.Unspecified, .dummy 0⟩, other2)

/-- Endpoint::CopyOrMove(IPEndpoint): assigns m_IPEndpoint, then
switches on its protocol: TCP, UDP, ICMP give Type::IP; Unspecified and
the assert(false) default arm (RFCOMM) fall through to m_Dummy = 0 and
Type::Unspecified. -/
def Endpoint.CopyOrMoveIP (other : IPEndpoint) : Endpoint :=
  match other.GetProtocol with
  | .TCP => ⟨EType.IP, .ip other⟩
  | .UDP => ⟨EType.IP, .ip other⟩
  | .ICMP => ⟨EType.IP, .ip other⟩
  | .Unspecified => ⟨EType.Unspecified, .dummy 0⟩
  | .RFCOMM => ⟨EType.Unspecified, .dummy 0⟩

/-- Endpoint::CopyOrMove(BTHEndpoint): assigns m_BTHEndpoint, then
switches on its protocol: RFCOMM gives Type::BTH; Unspecified and the
assert(false) default arm fall through to m_Dummy = 0 and
Type::Unspecified. -/
def Endpoint.CopyOrMoveBTH (other : BTHEndpoint) : Endpoint :=
  match other.GetProtocol with
  | .RFCOMM => ⟨EType.BTH, .bth other⟩
  | .Unspecified => ⟨EType.Unspecified, .dummy 0⟩
  | _ => ⟨EType.Unspecified, .dummy 0⟩

/-- Endpoint copy assignment.  The source checks this == &other and
returns *this unchanged on aliasing; object identity is modelled by the
sameObject flag. -/
def Endpoint.copyAssign (self other : Endpoint) (sameObject : Bool) : Endpoint :=
  if sameObject then self else Endpoint.Copy other

/-- Endpoint move assignment, with the this == &other aliasing check;
returns (new this, other after the assignment). -/
def Endpoint.moveAssign (self other : Endpoint) (sameObject : Bool) :
    Endpoint × Endpoint :=
  if sameObject then (self, other) else Endpoint.Move other

/-- Endpoint::operator==: if the discriminants agree, switch on the
type: IP and BTH compare the payloads, Unspecified returns true, the
assert(false) default arm breaks out and returns false; differing
discriminants return false. -/
def Endpoint.beq (a b : Endpoint) : Bool :=
  if a.m_Type = b.m_Type then
    if a.m_Type = EType.IP then
      IPEndpoint.eqb (Storage.readIP a.store) (Storage.readIP b.store)
    else if a.m_Type = EType.BTH then
      BTHEndpoint.eqb (Storage.readBTH a.store) (Storage.readBTH b.store)
    else if a.m_Type = EType.Unspecified then
      true
    else
      false
  else false

/-- Endpoint::GetType. -/
def Endpoint.GetType (e : Endpoint) : Nat := e.m_Type

/-- Endpoint::GetIPEndpoint: asserts m_Type == Type::IP, returns the
m_IPEndpoint union member. -/
def Endpoint.GetIPEndpoint (e : Endpoint) : IPEndpoint :=
  Storage.readIP e.store

/-- Endpoint::GetBTHEndpoint: asserts m_Type == Type::BTH, returns the
m_BTHEndpoint union member. -/
def Endpoint.GetBTHEndpoint (e : Endpoint) : BTHEndpoint :=
  Storage.readBTH e.store

/-- Endpoint::GetRelayPort: dispatch on m_Type; Unspecified and the
assert(false) default arm return 0. -/
def Endpoint.GetRelayPort (e : Endpoint) : Nat :=
  if e.m_Type = EType.IP then (Storage.readIP e.store).GetRelayPort
  else if e.m_Type = EType.BTH then (Storage.readBTH e.store).GetRelayPort
  else 0

/-- Endpoint::GetRelayHop: dispatch on m_Type; Unspecified and the
assert(false) default arm return 0. -/
def Endpoint.GetRelayHop (e : Endpoint) : Nat :=
  if e.m_Type = EType.IP then (Storage.readIP e.store).GetRelayHop
  else if e.m_Type = EType.BTH then (Storage.readBTH e.store).GetRelayHop
  else 0

/-- The protocols valid for the IP family, as enumerated by the switch
in Endpoint::CopyOrMove(IPEndpoint). -/
def validIPProtocol : Protocol → Bool
  | .TCP => true
  | .UDP => true
  | .ICMP => true
  | _ => false

/-- The tag and union consistency invariant of Endpoint: the
discriminant is one of the three enumerators; under Type::IP the active
member is m_IPEndpoint with a TCP, UDP or ICMP protocol; under
Type::BTH the active member is m_BTHEndpoint with protocol RFCOMM.
Under Type::Unspecified the storage is never read, so it is
unconstrained (a moved-from Endpoint keeps its stale payload bytes). -/
def Endpoint.invB (e : Endpoint) : Bool :=
  if e.m_Type = EType.Unspecified then true
  else if e.m_Type = EType.IP then
    match e.store with
    | .ip ip => validIPProtocol ip.protocol
    | _ => false
  else if e.m_Type = EType.BTH then
    match e.store with
    | .bth b => decide (b.protocol = Protocol.RFCOMM)
    | _ => false
  else false

/-- The Endpoint values reachable through the public operations:
default construction, construction from a concrete endpoint, copy
construction and assignment, move construction and assignment (both the
destination and the moved-from source). -/
inductive Endpoint.Reachable : Endpoint → Prop where
  | default_ctor : Endpoint.Reachable Endpoint.unspecified
  | from_ip (e : IPEndpoint) : Endpoint.Reachable (Endpoint.CopyOrMoveIP e)
  | from_bth (e : BTHEndpoint) : Endpoint.Reachable (Endpoint.CopyOrMoveBTH e)
  | copy {src : Endpoint} : Endpoint.Reachable src →
      Endpoint.Reachable (Endpoint.Copy src)
  | move_dst {src : Endpoint} : Endpoint.Reachable src →
      Endpoint.Reachable (Endpoint.Move src).1
  | move_src {src : Endpoint} : Endpoint.Reachable src →
      Endpoint.Reachable (Endpoint.Move src).2

theorem Endpoint.Move_snd (other : Endpoint) :
    (Endpoint.Move other).2 = ⟨EType.Unspecified, other.store⟩ := by
  unfold Endpoint.Move
  dsimp only
  split_ifs <;> rfl

theorem Endpoint.invB_unspec (s : Storage) :
    Endpoint.invB ⟨EType.Unspecified, s⟩ = true := rfl

theorem Endpoint.invB_of_reachable {e : Endpoint} (h : Endpoint.Reachable e) :
    e.invB = true := by
  induction h with
  | default_ctor => rfl
  | from_ip e =>
      cases e with
      | mk a p pr rp rh =>
          cases pr <;> rfl
  | from_bth e =>
      cases e with
      | mk a c pr rp rh =>
          cases pr <;> rfl
  | copy hsrc ih =>
      rename_i src
      unfold Endpoint.Copy
      by_cases h1 : src.m_Type = EType.IP
      · simp only [h1, if_pos]
        unfold Endpoint.invB at ih ⊢
        simp only [h1] at ih ⊢
        simp only [EType.IP, EType.Unspecified, EType.BTH] at *
        cases hs : src.store with
        | ip ip => simp [hs, Storage.readIP] at ih ⊢; exact ih
        | dummy v => simp [hs] at ih
        | bth b => simp [hs] at ih
      · by_cases h2 : src.m_Type = EType.BTH
        · simp only [h1, h2, if_neg, if_pos]
          unfold Endpoint.invB at ih ⊢
          simp only [h2] at ih ⊢
          simp only [EType.IP, EType.Unspecified, EType.BTH] at *
          cases hs : src.store with
          | bth b => simp [hs, Storage.readBTH] at ih ⊢; exact ih
          | dummy v => simp [hs] at ih
          | ip ip => simp [hs] at ih
        · simp only [h1, h2, if_neg]
          rfl
  | move_dst hsrc ih =>
      rename_i src
      unfold Endpoint.Move
      by_cases h1 : src.m_Type = EType.IP
      · simp only [h1, if_pos]
        unfold Endpoint.invB at ih ⊢
        simp only [h1] at ih ⊢
        simp only [EType.IP, EType.Unspecified, EType.BTH] at *
        cases hs : src.store with
        | ip ip => simp [hs, Storage.readIP] at ih ⊢; exact ih
        | dummy v => simp [hs] at ih
        | bth b => simp [hs] at ih
      · by_cases h2 : src.m_Type = EType.BTH
        · simp only [h1, h2, if_neg, if_pos]
          unfold Endpoint.invB at ih ⊢
          simp only [h2] at ih ⊢
          simp only [EType.IP, EType.Unspecified, EType.BTH] at *
          cases hs : src.store with
          | bth b => simp [hs, Storage.readBTH] at ih ⊢; exact ih
          | dummy v => simp [hs] at ih
          | ip ip => simp [hs] at ih
        · simp only [h1, h2, if_neg]
          rfl
  | move_src hsrc ih =>
      rename_i src
      rw [Endpoint.Move_snd]
      exact Endpoint.invB_unspec _

theorem Endpoint.type_cases {e : Endpoint} (hi : e.invB = true) :
    e.m_Type = EType.Unspecified ∨ e.m_Type = EType.IP ∨ e.m_Type = EType.BTH := by
  unfold Endpoint.invB at hi
  by_cases h0 : e.m_Type = EType.Unspecified
  · exact Or.inl h0
  by_cases h1 : e.m_Type = EType.IP
  · exact Or.inr (Or.inl h1)
  by_cases h2 : e.m_Type = EType.BTH
  · exact Or.inr (Or.inr h2)
  simp [h0, h1, h2] at hi

theorem Endpoint.invB_ip {e : Endpoint} (hi : e.invB = true)
    (ht : e.m_Type = EType.IP) :
    e.store = Storage.ip e.GetIPEndpoint ∧
    validIPProtocol e.GetIPEndpoint.GetProtocol = true := by
  unfold Endpoint.invB at hi
  rw [ht] at hi
  simp only [EType.IP, EType.Unspecified, EType.BTH] at hi
  norm_num at hi
  cases hs : e.store with
  | ip ip =>
      rw [hs] at hi
      simp only [Endpoint.GetIPEndpoint, hs, Storage.readIP]
      exact ⟨trivial, hi⟩
  | dummy v => rw [hs] at hi; exact absurd hi (by simp)
  | bth b => rw [hs] at hi; exact absurd hi (by simp)

theorem Endpoint.invB_bth {e : Endpoint} (hi : e.invB = true)
    (ht : e.m_Type = EType.BTH) :
    e.store = Storage.bth e.GetBTHEndpoint ∧
    e.GetBTHEndpoint.GetProtocol = Protocol.RFCOMM := by
  unfold Endpoint.invB at hi
  rw [ht] at hi
  simp only [EType.IP, EType.Unspecified, EType.BTH] at hi
  norm_num at hi
  cases hs : e.store with
  | bth b =>
      rw [hs] at hi
      simp only [Endpoint.GetBTHEndpoint, hs, Storage.readBTH]
      simp at hi
      exact ⟨trivial, hi⟩
  | dummy v => rw [hs] at hi; exact absurd hi (by simp)
  | ip ip => rw [hs] at hi; exact absurd hi (by simp)

theorem IPEndpoint.ipEqb_self (a : IPEndpoint) : a.eqb a = true :=
  (IPEndpoint.ipEqb_iff a a).mpr rfl

theorem BTHEndpoint.bthEqb_self (a : BTHEndpoint) : a.eqb a = true :=
  (BTHEndpoint.bthEqb_iff a a).mpr rfl

theorem Endpoint.relay_preserved (e : Endpoint) :
    (Endpoint.Copy e).GetRelayPort = e.GetRelayPort ∧
    (Endpoint.Copy e).GetRelayHop = e.GetRelayHop ∧
    (Endpoint.Move e).1.GetRelayPort = e.GetRelayPort ∧
    (Endpoint.Move e).1.GetRelayHop = e.GetRelayHop := by
  obtain ⟨t, s⟩ := e
  by_cases h1 : t = EType.IP
  · subst h1
    exact ⟨rfl, rfl, rfl, rfl⟩
  · by_cases h2 : t = EType.BTH
    · subst h2
      exact ⟨rfl, rfl, rfl, rfl⟩
    · simp only [EType.IP, EType.BTH] at h1 h2
      refine ⟨?_, ?_, ?_, ?_⟩ <;>
        simp [Endpoint.Copy, Endpoint.Move, Endpoint.GetRelayPort,
          Endpoint.GetRelayHop, h1, h2, EType.Unspecified, EType.IP, EType.BTH]

/-- Concrete sample IPEndpoint 10.0.0.5:9000 TCP, relay circuit 42 hop 2. -/
def sampleIP : IPEndpoint := ⟨.v4 167772165, 9000, .TCP, 42, 2⟩

/-- Concrete sample BTHEndpoint, RFCOMM channel 3, relay circuit 7 hop 1. -/
def sampleBTH : BTHEndpoint := ⟨123456789, 3, .RFCOMM, 7, 1⟩

/-- C1: every Endpoint reachable through the public operations (default
construction, construction from a concrete endpoint, copy
construction/assignment, move construction/assignment) satisfies the tag
invariant: under Type::IP the stored IP payload has protocol TCP, UDP or
ICMP; under Type::BTH the stored BTH payload has protocol RFCOMM; and
the discriminant/union consistency predicate invB holds, so every
operation preserves it. -/
theorem claim_C1 (e : Endpoint) (h : Endpoint.Reachable e) :
    e.invB = true ∧
    (e.GetType = EType.IP → validIPProtocol e.GetIPEndpoint.GetProtocol = true) ∧
    (e.GetType = EType.BTH → e.GetBTHEndpoint.GetProtocol = Protocol.RFCOMM) := by
  have hi := Endpoint.invB_of_reachable h
  exact ⟨hi, fun ht => (Endpoint.invB_ip hi ht).2, fun ht => (Endpoint.invB_bth hi ht).2⟩

/-- Witness for C1 at the Endpoint built from the sample TCP endpoint. -/
theorem claim_C1_witness :
    (Endpoint.CopyOrMoveIP sampleIP).invB = true ∧
    ((Endpoint.CopyOrMoveIP sampleIP).GetType = EType.IP →
      validIPProtocol (Endpoint.CopyOrMoveIP sampleIP).GetIPEndpoint.GetProtocol = true) ∧
    ((Endpoint.CopyOrMoveIP sampleIP).GetType = EType.BTH →
      (Endpoint.CopyOrMoveIP sampleIP).GetBTHEndpoint.GetProtocol = Protocol.RFCOMM) :=
  claim_C1 _ (Endpoint.Reachable.from_ip sampleIP)

/-- C2: wrapping a concrete IPEndpoint whose protocol is TCP, UDP or
ICMP yields Type::IP and GetIPEndpoint returns exactly that payload;
wrapping a BTHEndpoint whose protocol is RFCOMM yields Type::BTH and
GetBTHEndpoint returns exactly that payload. -/
theorem claim_C2 (ip : IPEndpoint) (b : BTHEndpoint)
    (hip : validIPProtocol ip.GetProtocol = true)
    (hb : b.GetProtocol = Protocol.RFCOMM) :
    (Endpoint.CopyOrMoveIP ip).GetType = EType.IP ∧
    (Endpoint.CopyOrMoveIP ip).GetIPEndpoint = ip ∧
    (Endpoint.CopyOrMoveBTH b).GetType = EType.BTH ∧
    (Endpoint.CopyOrMoveBTH b).GetBTHEndpoint = b := by
  have h1 : (Endpoint.CopyOrMoveIP ip).GetType = EType.IP ∧
      (Endpoint.CopyOrMoveIP ip).GetIPEndpoint = ip := by
    unfold Endpoint.CopyOrMoveIP
    cases hp : ip.GetProtocol <;>
      simp [hp, validIPProtocol] at hip ⊢ <;>
      simp [Endpoint.GetType, Endpoint.GetIPEndpoint, Storage.readIP]
  have h2 : (Endpoint.CopyOrMoveBTH b).GetType = EType.BTH ∧
      (Endpoint.CopyOrMoveBTH b).GetBTHEndpoint = b := by
    unfold Endpoint.CopyOrMoveBTH
    rw [hb]
    exact ⟨rfl, rfl⟩
  exact ⟨h1.1, h1.2, h2.1, h2.2⟩

/-- Witness for C2 at the sample TCP and RFCOMM endpoints. -/
theorem claim_C2_witness :
    (Endpoint.CopyOrMoveIP sampleIP).GetType = EType.IP ∧
    (Endpoint.CopyOrMoveIP sampleIP).GetIPEndpoint = sampleIP ∧
    (Endpoint.CopyOrMoveBTH sampleBTH).GetType = EType.BTH ∧
    (Endpoint.CopyOrMoveBTH sampleBTH).GetBTHEndpoint = sampleBTH :=
  claim_C2 sampleIP sampleBTH (by decide) (by decide)

/-- C3: wrapping a concrete IPEndpoint whose protocol is outside
{TCP, UDP, ICMP} (Unspecified, or the mismatched RFCOMM), or a
BTHEndpoint whose protocol is not RFCOMM, yields an Endpoint with
Type::Unspecified; the operation is total and returns normally, no
error or exception reaches the caller (the assert in the mismatch arm
is a debug-only contract check, compiled out in release). -/
theorem claim_C3 (ip : IPEndpoint) (b : BTHEndpoint)
    (hip : validIPProtocol ip.GetProtocol = false)
    (hb : b.GetProtocol ≠ Protocol.RFCOMM) :
    (Endpoint.CopyOrMoveIP ip).GetType = EType.Unspecified ∧
    (Endpoint.CopyOrMoveBTH b).GetType = EType.Unspecified := by
  constructor
  · unfold Endpoint.CopyOrMoveIP
    cases hp : ip.GetProtocol <;> simp [hp, validIPProtocol] at hip ⊢ <;> rfl
  · unfold Endpoint.CopyOrMoveBTH
    cases hp : b.GetProtocol <;> simp [hp] at hb ⊢ <;> rfl

/-- Witness for C3: an IPEndpoint carrying the mismatched RFCOMM
protocol and a BTHEndpoint carrying the mismatched TCP protocol both
degrade to the Unspecified Endpoint. -/
theorem claim_C3_witness :
    (Endpoint.CopyOrMoveIP ⟨.v4 5, 80, .RFCOMM, 0, 0⟩).GetType = EType.Unspecified ∧
    (Endpoint.CopyOrMoveBTH ⟨99, 1, .TCP, 0, 0⟩).GetType = EType.Unspecified :=
  claim_C3 ⟨.v4 5, 80, .RFCOMM, 0, 0⟩ ⟨99, 1, .TCP, 0, 0⟩ (by decide) (by decide)

/-- C4: moving out of a reachable Endpoint a leaves a with
Type::Unspecified, while the destination keeps the discriminant a had
and compares equal (under Endpoint::operator==) to the value a held
before the move. -/
theorem claim_C4 (a : Endpoint) (h : Endpoint.Reachable a) :
    (Endpoint.Move a).2.GetType = EType.Unspecified ∧
    (Endpoint.Move a).1.GetType = a.GetType ∧
    Endpoint.beq (Endpoint.Move a).1 a = true := by
  have hi := Endpoint.invB_of_reachable h
  have hc := Endpoint.type_cases hi
  clear h hi
  obtain ⟨t, s⟩ := a
  rcases hc with h0 | h1 | h2
  · replace h0 : t = EType.Unspecified := h0
    subst h0
    exact ⟨rfl, rfl, rfl⟩
  · replace h1 : t = EType.IP := h1
    subst h1
    exact ⟨rfl, rfl, IPEndpoint.ipEqb_self _⟩
  · replace h2 : t = EType.BTH := h2
    subst h2
    exact ⟨rfl, rfl, BTHEndpoint.bthEqb_self _⟩

/-- Witness for C4 at the Endpoint built from the sample TCP endpoint. -/
theorem claim_C4_witness :
    (Endpoint.Move (Endpoint.CopyOrMoveIP sampleIP)).2.GetType = EType.Unspecified ∧
    (Endpoint.Move (Endpoint.CopyOrMoveIP sampleIP)).1.GetType =
      (Endpoint.CopyOrMoveIP sampleIP).GetType ∧
    Endpoint.beq (Endpoint.Move (Endpoint.CopyOrMoveIP sampleIP)).1
      (Endpoint.CopyOrMoveIP sampleIP) = true :=
  claim_C4 _ (Endpoint.Reachable.from_ip sampleIP)

/-- The specification side of Endpoint equality: same active type and
equal payloads, or both Unspecified.  Written from the words of the
spec, to be compared with the operator== taken from the source. -/
def Endpoint.EqSpec (a b : Endpoint) : Prop :=
  (a.m_Type = EType.Unspecified ∧ b.m_Type = EType.Unspecified) ∨
  (a.m_Type = EType.IP ∧ b.m_Type = EType.IP ∧
    Storage.readIP a.store = Storage.readIP b.store) ∨
  (a.m_Type = EType.BTH ∧ b.m_Type = EType.BTH ∧
    Storage.readBTH a.store = Storage.readBTH b.store)

/-- C5: Endpoint::operator== returns true exactly when the two values
have the same active type and equal payloads or are both Unspecified;
an Endpoint holding an IPEndpoint never equals one holding a
BTHEndpoint; two default-constructed Endpoints are equal. -/
theorem claim_C5 (a b : Endpoint) (ip : IPEndpoint) (bt : BTHEndpoint) :
    (Endpoint.beq a b = true ↔ Endpoint.EqSpec a b) ∧
    Endpoint.beq ⟨EType.IP, .ip ip⟩ ⟨EType.BTH, .bth bt⟩ = false ∧
    Endpoint.beq Endpoint.unspecified Endpoint.unspecified = true := by
  obtain ⟨ta, sa⟩ := a
  obtain ⟨tb, sb⟩ := b
  refine ⟨?_, rfl, rfl⟩
  by_cases ht : ta = tb
  · subst ht
    by_cases h1 : ta = EType.IP
    · subst h1
      simp [Endpoint.beq, Endpoint.EqSpec, IPEndpoint.ipEqb_iff,
        EType.Unspecified, EType.IP, EType.BTH]
    · by_cases h2 : ta = EType.BTH
      · subst h2
        simp [Endpoint.beq, Endpoint.EqSpec, BTHEndpoint.bthEqb_iff,
          EType.Unspecified, EType.IP, EType.BTH]
      · by_cases h0 : ta = EType.Unspecified
        · subst h0
          simp [Endpoint.beq, Endpoint.EqSpec,
            EType.Unspecified, EType.IP, EType.BTH]
        · simp only [EType.Unspecified, EType.IP, EType.BTH] at h0 h1 h2
          simp [Endpoint.beq, Endpoint.EqSpec, h0, h1, h2,
            EType.Unspecified, EType.IP, EType.BTH]
  · have t1 : ¬(ta = EType.Unspecified ∧ tb = EType.Unspecified) := by
      rintro ⟨x, y⟩; exact ht (x.trans y.symm)
    have t2 : ¬(ta = EType.IP ∧ tb = EType.IP ∧
        Storage.readIP sa = Storage.readIP sb) := by
      rintro ⟨x, y, -⟩; exact ht (x.trans y.symm)
    have t3 : ¬(ta = EType.BTH ∧ tb = EType.BTH ∧
        Storage.readBTH sa = Storage.readBTH sb) := by
      rintro ⟨x, y, -⟩; exact ht (x.trans y.symm)
    simp [Endpoint.beq, Endpoint.EqSpec, ht, t1, t2, t3]

/-- C6: relay coordinates are carried losslessly: the Endpoint built
from a concrete endpoint with a valid protocol reports exactly its
relay_port and relay_hop, every copy and every move destination
preserves GetRelayPort and GetRelayHop of its source, and on an
Unspecified Endpoint both return 0. -/
theorem claim_C6 (ip : IPEndpoint) (b : BTHEndpoint) (e : Endpoint) (s : Storage)
    (hip : validIPProtocol ip.GetProtocol = true)
    (hb : b.GetProtocol = Protocol.RFCOMM) :
    (Endpoint.CopyOrMoveIP ip).GetRelayPort = ip.GetRelayPort ∧
    (Endpoint.CopyOrMoveIP ip).GetRelayHop = ip.GetRelayHop ∧
    (Endpoint.CopyOrMoveBTH b).GetRelayPort = b.GetRelayPort ∧
    (Endpoint.CopyOrMoveBTH b).GetRelayHop = b.GetRelayHop ∧
    (Endpoint.Copy e).GetRelayPort = e.GetRelayPort ∧
    (Endpoint.Copy e).GetRelayHop = e.GetRelayHop ∧
    (Endpoint.Move e).1.GetRelayPort = e.GetRelayPort ∧
    (Endpoint.Move e).1.GetRelayHop = e.GetRelayHop ∧
    (Endpoint.mk EType.Unspecified s).GetRelayPort = 0 ∧
    (Endpoint.mk EType.Unspecified s).GetRelayHop = 0 := by
  have hcons : (Endpoint.CopyOrMoveIP ip).GetRelayPort = ip.GetRelayPort ∧
      (Endpoint.CopyOrMoveIP ip).GetRelayHop = ip.GetRelayHop := by
    unfold Endpoint.CopyOrMoveIP
    cases hp : ip.GetProtocol <;> rw [hp] at hip <;>
      first
        | exact ⟨rfl, rfl⟩
        | exact absurd hip (by decide)
  have hconsb : (Endpoint.CopyOrMoveBTH b).GetRelayPort = b.GetRelayPort ∧
      (Endpoint.CopyOrMoveBTH b).GetRelayHop = b.GetRelayHop := by
    unfold Endpoint.CopyOrMoveBTH
    rw [hb]
    exact ⟨rfl, rfl⟩
  have hpres := Endpoint.relay_preserved e
  exact ⟨hcons.1, hcons.2, hconsb.1, hconsb.2, hpres.1, hpres.2.1,
    hpres.2.2.1, hpres.2.2.2, rfl, rfl⟩

/-- Witness for C6 at the sample endpoints and the Endpoint built from
the sample TCP endpoint. -/
theorem claim_C6_witness :
    (Endpoint.CopyOrMoveIP sampleIP).GetRelayPort = sampleIP.GetRelayPort ∧
    (Endpoint.CopyOrMoveIP sampleIP).GetRelayHop = sampleIP.GetRelayHop ∧
    (Endpoint.CopyOrMoveBTH sampleBTH).GetRelayPort = sampleBTH.GetRelayPort ∧
    (Endpoint.CopyOrMoveBTH sampleBTH).GetRelayHop = sampleBTH.GetRelayHop ∧
    (Endpoint.Copy (Endpoint.CopyOrMoveIP sampleIP)).GetRelayPort =
      (Endpoint.CopyOrMoveIP sampleIP).GetRelayPort ∧
    (Endpoint.Copy (Endpoint.CopyOrMoveIP sampleIP)).GetRelayHop =
      (Endpoint.CopyOrMoveIP sampleIP).GetRelayHop ∧
    (Endpoint.Move (Endpoint.CopyOrMoveIP sampleIP)).1.GetRelayPort =
      (Endpoint.CopyOrMoveIP sampleIP).GetRelayPort ∧
    (Endpoint.Move (Endpoint.CopyOrMoveIP sampleIP)).1.GetRelayHop =
      (Endpoint.CopyOrMoveIP sampleIP).GetRelayHop ∧
    (Endpoint.mk EType.Unspecified (.dummy 0)).GetRelayPort = 0 ∧
    (Endpoint.mk EType.Unspecified (.dummy 0)).GetRelayHop = 0 :=
  claim_C6 sampleIP sampleBTH (Endpoint.CopyOrMoveIP sampleIP) (.dummy 0)
    (by decide) (by decide)

/-- C7: concrete-endpoint equality respects relay coordinates: two
IPEndpoints identical except for relay_hop (or except for relay_port)
compare unequal; a concrete endpoint identical in all fields compares
equal to itself; and the same distinction shows through
Endpoint::operator== once the payloads are wrapped. -/
theorem claim_C7 (a : IPAddress) (port rp rh hop1 hop2 rp1 rp2 : Nat)
    (p : Protocol) (e : IPEndpoint) (eb : BTHEndpoint)
    (hne : hop1 ≠ hop2) (hrp : rp1 ≠ rp2) (hp : validIPProtocol p = true) :
    IPEndpoint.eqb ⟨a, port, p, rp, hop1⟩ ⟨a, port, p, rp, hop2⟩ = false ∧
    IPEndpoint.eqb ⟨a, port, p, rp1, rh⟩ ⟨a, port, p, rp2, rh⟩ = false ∧
    IPEndpoint.eqb e e = true ∧
    BTHEndpoint.eqb eb eb = true ∧
    Endpoint.beq (Endpoint.CopyOrMoveIP ⟨a, port, p, rp, hop1⟩)
      (Endpoint.CopyOrMoveIP ⟨a, port, p, rp, hop2⟩) = false ∧
    Endpoint.beq (Endpoint.CopyOrMoveIP e) (Endpoint.CopyOrMoveIP e) = true := by
  refine ⟨?_, ?_, IPEndpoint.ipEqb_self e, BTHEndpoint.bthEqb_self eb, ?_, ?_⟩
  · simp [IPEndpoint.eqb, hne]
  · simp [IPEndpoint.eqb, hrp]
  · cases p <;>
      first
        | exact absurd hp (by decide)
        | simp [Endpoint.CopyOrMoveIP, IPEndpoint.GetProtocol, Endpoint.beq,
            Storage.readIP, IPEndpoint.eqb, EType.Unspecified, EType.IP,
            EType.BTH, hne]
  · cases hq : e.GetProtocol <;>
      simp [Endpoint.CopyOrMoveIP, hq, Endpoint.beq, Storage.readIP,
        EType.Unspecified, EType.IP, EType.BTH, IPEndpoint.ipEqb_self]

/-- Witness for C7 at concrete inputs: same address, port, protocol
but hop 2 versus hop 3 (and circuit 42 versus circuit 43). -/
theorem claim_C7_witness :
    IPEndpoint.eqb ⟨.v4 7, 443, .TCP, 42, 2⟩ ⟨.v4 7, 443, .TCP, 42, 3⟩ = false ∧
    IPEndpoint.eqb ⟨.v4 7, 443, .TCP, 42, 5⟩ ⟨.v4 7, 443, .TCP, 43, 5⟩ = false ∧
    IPEndpoint.eqb sampleIP sampleIP = true ∧
    BTHEndpoint.eqb sampleBTH sampleBTH = true ∧
    Endpoint.beq (Endpoint.CopyOrMoveIP ⟨.v4 7, 443, .TCP, 42, 2⟩)
      (Endpoint.CopyOrMoveIP ⟨.v4 7, 443, .TCP, 42, 3⟩) = false ∧
    Endpoint.beq (Endpoint.CopyOrMoveIP sampleIP)
      (Endpoint.CopyOrMoveIP sampleIP) = true :=
  claim_C7 (.v4 7) 443 42 5 2 3 42 43 .TCP sampleIP sampleBTH
    (by decide) (by decide) (by decide)

/-- C8: self-assignment is a no-op: with the aliasing check of the
source (this == &other, modelled by the sameObject flag), copy
self-assignment returns the object unchanged and move self-assignment
leaves both views of the object unchanged; type, payload and all
accessor results are untouched. -/
theorem claim_C8 (a : Endpoint) :
    Endpoint.copyAssign a a true = a ∧
    Endpoint.moveAssign a a true = (a, a) ∧
    (Endpoint.copyAssign a a true).GetType = a.GetType ∧
    (Endpoint.copyAssign a a true).GetRelayPort = a.GetRelayPort ∧
    (Endpoint.copyAssign a a true).GetRelayHop = a.GetRelayHop ∧
    (Endpoint.copyAssign a a true).store = a.store :=
  ⟨rfl, rfl, rfl, rfl, rfl, rfl⟩

/-- The condition under which the switch statements of operator==,
GetRelayPort, GetRelayHop, Copy and Move reach their assert(false)
default arm: a discriminant that is none of the three enumerators. -/
def Endpoint.assertBranch (e : Endpoint) : Prop :=
  e.m_Type ≠ EType.IP ∧ e.m_Type ≠ EType.BTH ∧ e.m_Type ≠ EType.Unspecified

/-- C9: every reachable Endpoint has discriminant Unspecified, IP or
BTH, so the assert(false) default arms of operator==, GetRelayPort,
GetRelayHop, Copy and Move are unreachable: no operation on a reachable
value takes its error branch. -/
theorem claim_C9 (e : Endpoint) (h : Endpoint.Reachable e) :
    (e.m_Type = EType.Unspecified ∨ e.m_Type = EType.IP ∨ e.m_Type = EType.BTH) ∧
    ¬ Endpoint.assertBranch e := by
  have hc := Endpoint.type_cases (Endpoint.invB_of_reachable h)
  refine ⟨hc, ?_⟩
  rintro ⟨n1, n2, n0⟩
  rcases hc with h0 | h1 | h2
  exacts [n0 h0, n1 h1, n2 h2]

/-- Witness for C9 at the default-constructed Endpoint. -/
theorem claim_C9_witness :
    (Endpoint.unspecified.m_Type = EType.Unspecified ∨
      Endpoint.unspecified.m_Type = EType.IP ∨
      Endpoint.unspecified.m_Type = EType.BTH) ∧
    ¬ Endpoint.assertBranch Endpoint.unspecified :=
  claim_C9 Endpoint.unspecified Endpoint.Reachable.default_ctor

/-- C10: a moved-from Endpoint is observably a default-constructed one:
GetType is Unspecified, both relay accessors return 0, it compares
equal to the default-constructed Endpoint, comparing it against any
value gives the same answer as for a default-constructed one, and
assigning into it behaves exactly as assigning into a fresh Endpoint. -/
theorem claim_C10 (a b : Endpoint) :
    (Endpoint.Move a).2.GetType = EType.Unspecified ∧
    (Endpoint.Move a).2.GetRelayPort = 0 ∧
    (Endpoint.Move a).2.GetRelayHop = 0 ∧
    Endpoint.beq (Endpoint.Move a).2 Endpoint.unspecified = true ∧
    Endpoint.beq (Endpoint.Move a).2 b = Endpoint.beq Endpoint.unspecified b ∧
    Endpoint.copyAssign (Endpoint.Move a).2 b false =
      Endpoint.copyAssign Endpoint.unspecified b false := by
  rw [Endpoint.Move_snd]
  refine ⟨rfl, rfl, rfl, rfl, ?_, rfl⟩
  obtain ⟨tb, sb⟩ := b
  simp [Endpoint.beq, Endpoint.unspecified, EType.Unspecified, EType.IP,
    EType.BTH]

end QuantumGate
